import Mathlib

/-
Verification of the Quickprop implementation (quickprop.ipynb).

The source is a numpy/torch implementation of Fahlman's Quickprop weight
update rule together with a gradient-descent seeding step and a convergence
driver.  The shallow embedding below models:

  * machine floats as exact rationals extended with infinities and NaN
    (inductive NQ), with the IEEE-754 special-value rules that numpy/torch
    follow for the operations the source uses (so `0 * inf = nan`,
    `x / 0 = ±inf` or `nan`, comparisons with NaN are false, ...);
    rounding is not modelled - all finite arithmetic is exact;
  * 1-D arrays as `List NQ`, with numpy's elementwise broadcast rule for
    binary operations (`bop`): equal lengths act componentwise, a length-one
    operand broadcasts, any other mismatch is an error (`none`);
  * `calc_gradient` (torch autograd, the external GradientProvider of the
    spec) as an opaque stateful oracle `GP σ`: given its own state and the
    parameter vector it returns new state, loss, gradient and prediction;
  * the functions `cond_add_slope`, `clip_at_max_growth`, `grad_descent_step`,
    `quickprop_step` and the driver `quickprop` of the source, the latter
    three parameterised by the gradient oracle; Python exceptions surface as
    `none` / `Except.error`.

Scalar (per-component) versions of the elementwise pipeline are provided and
proved equal to the vector versions on singleton arrays
(`quickprop_core_singleton`), since all array operations in the source are
elementwise.
-/

inductive NQ where
  | fin : ℚ → NQ
  | pinf : NQ
  | ninf : NQ
  | nan : NQ
deriving DecidableEq

def NQ.neg : NQ → NQ
  | fin q => fin (-q)
  | pinf => ninf
  | ninf => pinf
  | nan => nan

instance : Neg NQ := ⟨NQ.neg⟩

def NQ.add : NQ → NQ → NQ
  | fin a, fin b => fin (a + b)
  | fin _, pinf => pinf
  | fin _, ninf => ninf
  | pinf, fin _ => pinf
  | ninf, fin _ => ninf
  | pinf, pinf => pinf
  | ninf, ninf => ninf
  | pinf, ninf => nan
  | ninf, pinf => nan
  | _, _ => nan

instance : Add NQ := ⟨NQ.add⟩

def NQ.sub (a b : NQ) : NQ := a + (-b)

instance : Sub NQ := ⟨NQ.sub⟩

def NQ.mul : NQ → NQ → NQ
  | fin a, fin b => fin (a * b)
  | fin a, pinf => if a < 0 then ninf else if a = 0 then nan else pinf
  | fin a, ninf => if a < 0 then pinf else if a = 0 then nan else ninf
  | pinf, fin b => if b < 0 then ninf else if b = 0 then nan else pinf
  | ninf, fin b => if b < 0 then pinf else if b = 0 then nan else ninf
  | pinf, pinf => pinf
  | ninf, ninf => pinf
  | pinf, ninf => ninf
  | ninf, pinf => ninf
  | _, _ => nan

instance : Mul NQ := ⟨NQ.mul⟩

def NQ.div : NQ → NQ → NQ
  | fin a, fin b =>
      if b = 0 then (if a < 0 then ninf else if a = 0 then nan else pinf)
      else fin (a / b)
  | fin _, pinf => fin 0
  | fin _, ninf => fin 0
  | pinf, fin b => if b < 0 then ninf else pinf
  | ninf, fin b => if b < 0 then pinf else ninf
  | _, _ => nan

instance : Div NQ := ⟨NQ.div⟩

/-- np.abs / np.absolute on a scalar. -/
def NQ.absolute : NQ → NQ
  | fin q => if q < 0 then fin (-q) else fin q
  | pinf => pinf
  | ninf => pinf
  | nan => nan

/-- np.sign on a scalar (NaN maps to NaN, infinities to ±1). -/
def NQ.sign : NQ → NQ
  | fin q => if q < 0 then fin (-1) else if q = 0 then fin 0 else fin 1
  | pinf => fin 1
  | ninf => fin (-1)
  | nan => nan

/-- np.maximum on scalars (NaN-propagating). -/
def NQ.maximum : NQ → NQ → NQ
  | fin a, fin b => fin (max a b)
  | fin _, pinf => pinf
  | fin a, ninf => fin a
  | pinf, fin _ => pinf
  | ninf, fin b => fin b
  | pinf, pinf => pinf
  | ninf, ninf => ninf
  | pinf, ninf => pinf
  | ninf, pinf => pinf
  | _, _ => nan

/-- np.minimum on scalars (NaN-propagating). -/
def NQ.minimum : NQ → NQ → NQ
  | fin a, fin b => fin (min a b)
  | fin a, pinf => fin a
  | fin _, ninf => ninf
  | pinf, fin b => fin b
  | ninf, fin _ => ninf
  | pinf, pinf => pinf
  | ninf, ninf => ninf
  | pinf, ninf => ninf
  | ninf, pinf => ninf
  | _, _ => nan

/-- np.ceil on a scalar. -/
def NQ.ceil : NQ → NQ
  | fin q => fin ((⌈q⌉ : ℤ) : ℚ)
  | pinf => pinf
  | ninf => ninf
  | nan => nan

/-- np.clip on a scalar: numpy documents clip(x, lo, hi) as
minimum(maximum(x, lo), hi). -/
def NQ.clip (x lo hi : NQ) : NQ := NQ.minimum (NQ.maximum x lo) hi

/-- Float strict comparison, false whenever NaN is involved. -/
def NQ.ltb : NQ → NQ → Bool
  | fin a, fin b => decide (a < b)
  | fin _, pinf => true
  | fin _, ninf => false
  | pinf, fin _ => false
  | ninf, fin _ => true
  | pinf, pinf => false
  | ninf, ninf => false
  | ninf, pinf => true
  | pinf, ninf => false
  | _, _ => false

/-- Float non-strict comparison, false whenever NaN is involved. -/
def NQ.leb : NQ → NQ → Bool
  | fin a, fin b => decide (a ≤ b)
  | fin _, pinf => true
  | fin _, ninf => false
  | pinf, fin _ => false
  | ninf, fin _ => true
  | pinf, pinf => true
  | ninf, ninf => true
  | ninf, pinf => true
  | pinf, ninf => false
  | _, _ => false

@[simp] theorem NQ.hAdd_eq (a b : NQ) : a + b = NQ.add a b := rfl

@[simp] theorem NQ.hMul_eq (a b : NQ) : a * b = NQ.mul a b := rfl

@[simp] theorem NQ.hDiv_eq (a b : NQ) : a / b = NQ.div a b := rfl

@[simp] theorem NQ.hNeg_eq (a : NQ) : -a = NQ.neg a := rfl

@[simp] theorem NQ.hSub_eq (a b : NQ) : a - b = NQ.sub a b := rfl

@[simp] theorem NQ.sub_eq (a b : NQ) : NQ.sub a b = NQ.add a (NQ.neg b) := rfl

@[simp] theorem NQ.neg_fin (a : ℚ) : NQ.neg (NQ.fin a) = NQ.fin (-a) := rfl

@[simp] theorem NQ.add_fin (a b : ℚ) : NQ.add (NQ.fin a) (NQ.fin b) = NQ.fin (a + b) := rfl

@[simp] theorem NQ.mul_fin (a b : ℚ) : NQ.mul (NQ.fin a) (NQ.fin b) = NQ.fin (a * b) := rfl

@[simp] theorem NQ.div_fin (a b : ℚ) :
    NQ.div (NQ.fin a) (NQ.fin b) =
      if b = 0 then (if a < 0 then NQ.ninf else if a = 0 then NQ.nan else NQ.pinf)
      else NQ.fin (a / b) := rfl

@[simp] theorem NQ.absolute_fin (a : ℚ) :
    NQ.absolute (NQ.fin a) = if a < 0 then NQ.fin (-a) else NQ.fin a := rfl

@[simp] theorem NQ.sign_fin (a : ℚ) :
    NQ.sign (NQ.fin a) =
      if a < 0 then NQ.fin (-1) else if a = 0 then NQ.fin 0 else NQ.fin 1 := rfl

@[simp] theorem NQ.maximum_fin (a b : ℚ) :
    NQ.maximum (NQ.fin a) (NQ.fin b) = NQ.fin (max a b) := rfl

@[simp] theorem NQ.minimum_fin (a b : ℚ) :
    NQ.minimum (NQ.fin a) (NQ.fin b) = NQ.fin (min a b) := rfl

@[simp] theorem NQ.ceil_fin (a : ℚ) : NQ.ceil (NQ.fin a) = NQ.fin ((⌈a⌉ : ℤ) : ℚ) := rfl

@[simp] theorem NQ.ltb_fin (a b : ℚ) : NQ.ltb (NQ.fin a) (NQ.fin b) = decide (a < b) := rfl

@[simp] theorem NQ.leb_fin (a b : ℚ) : NQ.leb (NQ.fin a) (NQ.fin b) = decide (a ≤ b) := rfl

@[simp] theorem NQ.mul_fin_pinf (a : ℚ) :
    NQ.mul (NQ.fin a) NQ.pinf =
      if a < 0 then NQ.ninf else if a = 0 then NQ.nan else NQ.pinf := rfl

@[simp] theorem NQ.mul_fin_ninf (a : ℚ) :
    NQ.mul (NQ.fin a) NQ.ninf =
      if a < 0 then NQ.pinf else if a = 0 then NQ.nan else NQ.ninf := rfl

@[simp] theorem NQ.mul_nan_left (x : NQ) : NQ.mul NQ.nan x = NQ.nan := by cases x <;> rfl

@[simp] theorem NQ.mul_fin_nan (a : ℚ) : NQ.mul (NQ.fin a) NQ.nan = NQ.nan := rfl

@[simp] theorem NQ.add_nan_left (x : NQ) : NQ.add NQ.nan x = NQ.nan := by cases x <;> rfl

@[simp] theorem NQ.add_nan_right (x : NQ) : NQ.add x NQ.nan = NQ.nan := by cases x <;> rfl

@[simp] theorem NQ.add_fin_pinf (a : ℚ) : NQ.add (NQ.fin a) NQ.pinf = NQ.pinf := rfl

@[simp] theorem NQ.add_fin_ninf (a : ℚ) : NQ.add (NQ.fin a) NQ.ninf = NQ.ninf := rfl

@[simp] theorem NQ.neg_nan : NQ.neg NQ.nan = NQ.nan := rfl

@[simp] theorem NQ.absolute_nan : NQ.absolute NQ.nan = NQ.nan := rfl

@[simp] theorem NQ.sign_nan : NQ.sign NQ.nan = NQ.nan := rfl

@[simp] theorem NQ.ceil_nan : NQ.ceil NQ.nan = NQ.nan := rfl

@[simp] theorem NQ.maximum_nan_left (x : NQ) : NQ.maximum NQ.nan x = NQ.nan := by cases x <;> rfl

@[simp] theorem NQ.minimum_nan_left (x : NQ) : NQ.minimum NQ.nan x = NQ.nan := by cases x <;> rfl

@[simp] theorem NQ.maximum_fin_nan (a : ℚ) : NQ.maximum (NQ.fin a) NQ.nan = NQ.nan := rfl

@[simp] theorem NQ.minimum_fin_nan (a : ℚ) : NQ.minimum (NQ.fin a) NQ.nan = NQ.nan := rfl

theorem NQ.absolute_fin_abs (a : ℚ) : NQ.absolute (NQ.fin a) = NQ.fin |a| := by
  rcases lt_or_le a 0 with h | h
  · rw [NQ.absolute_fin, if_pos h, abs_of_neg h]
  · rw [NQ.absolute_fin, if_neg (not_lt.mpr h), abs_of_nonneg h]

theorem NQ.sign_fin_exists (a : ℚ) : ∃ c : ℚ, NQ.sign (NQ.fin a) = NQ.fin c := by
  rw [NQ.sign_fin]
  rcases lt_trichotomy a 0 with h | h | h
  · exact ⟨-1, if_pos h⟩
  · exact ⟨0, by rw [if_neg (by rw [h]; exact lt_irrefl 0), if_pos h]⟩
  · exact ⟨1, by rw [if_neg (asymm h), if_neg h.ne']⟩

theorem NQ.ltb_false_of_leb (a b : NQ) (h : NQ.leb a b = true) : NQ.ltb b a = false := by
  cases a <;> cases b <;> simp_all [NQ.leb, NQ.ltb]

/-- Elementwise binary operation on 1-D arrays with the numpy broadcast rule:
equal lengths act componentwise, a length-one operand is broadcast against the
other, and any other length mismatch is an error (`none`). -/
def bop (f : NQ → NQ → NQ) (xs ys : List NQ) : Option (List NQ) :=
  if xs.length = ys.length then some (List.zipWith f xs ys)
  else match xs, ys with
    | [x], _ => some (ys.map (fun v => f x v))
    | _, [y] => some (xs.map (fun v => f v y))
    | _, _ => none

theorem bop_some_of_length_eq (f : NQ → NQ → NQ) (xs ys : List NQ)
    (h : xs.length = ys.length) : bop f xs ys = some (List.zipWith f xs ys) := by
  simp [bop, h]

theorem bop_none_of_mismatch (f : NQ → NQ → NQ) (xs ys : List NQ)
    (h : xs.length ≠ ys.length) (h2 : 2 ≤ xs.length) (h3 : 2 ≤ ys.length) :
    bop f xs ys = none := by
  rcases xs with _ | ⟨x1, _ | ⟨x2, xs⟩⟩
  · simp at h2
  · simp at h2
  · rcases ys with _ | ⟨y1, _ | ⟨y2, ys⟩⟩
    · simp at h3
    · simp at h3
    · simp only [bop, if_neg h]

/-- cond_add_slope from the source, per vector component:
ddw = clip(abs(sign(dw) + sign(dw_prev)), 0, 1); dw + ddw * (-lr * dL). -/
def cond_add_slope (dw dw_prev dL learning_rate : NQ) : NQ :=
  dw + NQ.clip (NQ.absolute (NQ.sign dw + NQ.sign dw_prev)) (NQ.fin 0) (NQ.fin 1) *
      (-learning_rate * dL)

/-- clip_at_max_growth from the source, per vector component:
clip dw to [-γ·abs(dw_prev), γ·abs(dw_prev)]. -/
def clip_at_max_growth (dw dw_prev max_growth_factor : NQ) : NQ :=
  NQ.clip dw (-(max_growth_factor * NQ.absolute dw_prev)) (max_growth_factor * NQ.absolute dw_prev)

/-- Per-component decider bit of quickprop_step:
ddL = ceil(clip(abs(dL_prev - dL), 0, 1) / 2). -/
def qp_ddL (dL_prev dL : NQ) : NQ :=
  NQ.ceil (NQ.clip (NQ.absolute (dL_prev - dL)) (NQ.fin 0) (NQ.fin 1) / NQ.fin 2)

/-- Per-component raw delta of quickprop_step before cond_add_slope and
clip_at_max_growth: dw = dL * (ddL * (dw_prev / (dL_prev - dL)) + (1 - ddL) * (-gd_lr)). -/
def qp_raw_dw (dw_prev dL_prev dL gd_learning_rate : NQ) : NQ :=
  dL * (qp_ddL dL_prev dL * (dw_prev / (dL_prev - dL)) +
        (NQ.fin 1 - qp_ddL dL_prev dL) * (-gd_learning_rate))

/-- Per-component delta returned by quickprop_step: the raw delta, then
cond_add_slope, then clip_at_max_growth with the default growth factor 1.75. -/
def quickprop_dw (dw_prev dL_prev dL qp_learning_rate gd_learning_rate : NQ) : NQ :=
  clip_at_max_growth
    (cond_add_slope (qp_raw_dw dw_prev dL_prev dL gd_learning_rate) dw_prev dL qp_learning_rate)
    dw_prev (NQ.fin (7/4))

/-- The decider bit evaluates on finite inputs to 0 when the two gradients
are equal and to 1 when they differ. -/
theorem qp_ddL_fin (a b : ℚ) :
    qp_ddL (NQ.fin a) (NQ.fin b) = if a = b then NQ.fin 0 else NQ.fin 1 := by
  rcases eq_or_ne a b with h | h
  · subst h
    norm_num [qp_ddL, NQ.clip]
  · have hd : a + -b ≠ 0 := fun hc => h (by linarith)
    have habs : (0:ℚ) < |a + -b| := abs_pos.mpr hd
    simp only [qp_ddL, NQ.clip, NQ.hSub_eq, NQ.sub_eq, NQ.neg_fin, NQ.add_fin, NQ.hDiv_eq]
    rw [if_neg h, NQ.absolute_fin_abs]
    simp only [NQ.maximum_fin, NQ.minimum_fin, NQ.div_fin]
    rw [if_neg (by norm_num : (2:ℚ) ≠ 0)]
    simp only [NQ.ceil_fin]
    rw [max_eq_left (le_of_lt habs)]
    have hceil : ⌈min |a + -b| 1 / 2⌉ = 1 := by
      rw [Int.ceil_eq_iff]
      constructor
      · push_cast
        have : (0:ℚ) < min |a + -b| 1 := lt_min habs (by norm_num)
        linarith
      · push_cast
        have : min |a + -b| 1 ≤ 1 := min_le_right _ _
        linarith
    rw [hceil]
    norm_num

/-- Vectorised cond_add_slope, exactly as in the source. -/
def cond_add_slopeV (dw dw_prev dL : List NQ) (learning_rate : NQ) : Option (List NQ) := do
  let sgn ← bop NQ.add (dw.map NQ.sign) (dw_prev.map NQ.sign)
  let ddw := sgn.map (fun v => NQ.clip (NQ.absolute v) (NQ.fin 0) (NQ.fin 1))
  let t ← bop NQ.mul ddw (dL.map (fun v => -learning_rate * v))
  bop NQ.add dw t

/-- Vectorised clip_at_max_growth, exactly as in the source. -/
def clip_at_max_growthV (dw dw_prev : List NQ) (max_growth_factor : NQ) : Option (List NQ) := do
  let max_growth := dw_prev.map (fun v => max_growth_factor * NQ.absolute v)
  let m1 ← bop NQ.maximum dw (max_growth.map NQ.neg)
  bop NQ.minimum m1 max_growth

/-- Body of quickprop_step after the calc_gradient call: decider bit,
blended quickprop and gradient-descent factors, raw delta, cond_add_slope,
clip_at_max_growth, and the parameter update. -/
def quickprop_core (w dw_prev dL_prev : List NQ) (L : NQ) (dL predicted : List NQ)
    (qp_learning_rate gd_learning_rate : NQ) :
    Option (List NQ × List NQ × NQ × List NQ × List NQ) := do
  let d1 ← bop NQ.sub dL_prev dL
  let ddL := d1.map (fun v => NQ.ceil (NQ.clip (NQ.absolute v) (NQ.fin 0) (NQ.fin 1) / NQ.fin 2))
  let d2 ← bop NQ.sub dL_prev dL
  let q1 ← bop NQ.div dw_prev d2
  let quickprop_factor ← bop NQ.mul ddL q1
  let grad_desc_factor := ddL.map (fun v => (NQ.fin 1 - v) * (-gd_learning_rate))
  let s1 ← bop NQ.add quickprop_factor grad_desc_factor
  let dw1 ← bop NQ.mul dL s1
  let dw2 ← cond_add_slopeV dw1 dw_prev dL qp_learning_rate
  let dw ← clip_at_max_growthV dw2 dw_prev (NQ.fin (7/4))
  let new_w ← bop NQ.add w dw
  return (new_w, dw, L, dL, predicted)

/-- On singleton arrays the vectorised quickprop_step body agrees with the
per-component definitions. -/
theorem quickprop_core_singleton (w0 p0 g0 L g1 : NQ) (pred : List NQ) (qlr glr : NQ) :
    quickprop_core [w0] [p0] [g0] L [g1] pred qlr glr =
      some ([w0 + quickprop_dw p0 g0 g1 qlr glr], [quickprop_dw p0 g0 g1 qlr glr],
            L, [g1], pred) :=
  rfl

/-- The external GradientProvider (calc_gradient with torch autograd in the
source): given its own state and the parameter vector, returns new provider
state, loss, gradient and prediction.  The provider state makes the oracle
general enough to express fixed loss sequences and call counting; the real
torch provider is the stateless special case. -/
def GP (σ : Type) : Type := σ → List NQ → σ × NQ × List NQ × List NQ

/-- grad_descent_step from the source: one call to the gradient provider,
then dw = -lr * dL and new_w = w + dw; returns (new_w, dw, L, dL). -/
def grad_descent_stepV {σ : Type} (gp : GP σ) (s : σ) (w : List NQ) (learning_rate : NQ) :
    σ × Option (List NQ × List NQ × NQ × List NQ) :=
  let r := gp s w
  let dw := r.2.2.1.map (fun v => -learning_rate * v)
  (r.1, (bop NQ.add w dw).map (fun new_w => (new_w, dw, r.2.1, r.2.2.1)))

/-- quickprop_step from the source: one call to the gradient provider, then
the elementwise pipeline of quickprop_core. -/
def quickprop_stepV {σ : Type} (gp : GP σ) (s : σ) (w dw_prev dL_prev : List NQ)
    (qp_learning_rate gd_learning_rate : NQ) :
    σ × Option (List NQ × List NQ × NQ × List NQ × List NQ) :=
  let r := gp s w
  (r.1, quickprop_core w dw_prev dL_prev r.2.1 r.2.2.1 r.2.2.2 qp_learning_rate gd_learning_rate)

/-- The mutable state of the quickprop driver loop.  `predicted = none`
models the initial Python list placeholder `[]`, which has no detach method. -/
structure QPState where
  w : List NQ
  dL : List NQ
  dL_prev : List NQ
  dw_prev : List NQ
  L : NQ
  L_mean : NQ
  L_mean_prev : NQ
  L_mean_diff : NQ
  i : ℕ
  predicted : Option (List NQ)
deriving DecidableEq

/-- One iteration of the driver loop: i += 1; dL_prev = dL.clone();
quickprop_step; dw_prev = dw.clone(); running-mean update. -/
def quickprop_body {σ : Type} (gp : GP σ) (qp_learning_rate : NQ) (s : σ) (st : QPState) :
    Option (σ × QPState) :=
  let i := st.i + 1
  let dL_prev := st.dL
  let r := quickprop_stepV gp s st.w st.dw_prev dL_prev qp_learning_rate (NQ.fin (1/100000))
  r.2.map (fun out =>
    let L := out.2.2.1
    let L_mean := st.L_mean + NQ.fin (1/((i : ℚ)+1)) * (L - st.L_mean)
    let L_mean_diff := NQ.absolute (st.L_mean_prev - L_mean)
    (r.1, ⟨out.1, out.2.2.2.1, dL_prev, out.2.1, L, L_mean, L_mean, L_mean_diff, i,
           some out.2.2.2.2⟩))

/-- The driver loop guard: L_mean_diff > tolerance and i < patience. -/
def quickprop_cond (tolerance : NQ) (patience : ℕ) (st : QPState) : Bool :=
  NQ.ltb tolerance st.L_mean_diff && decide (st.i < patience)

/-- The driver while-loop.  The fuel argument makes the recursion structural;
the driver always calls it with fuel = patience, which the guard
`i < patience` makes sufficient, so the fuel never cuts a run short. -/
def quickprop_loop {σ : Type} (gp : GP σ) (qp_learning_rate tolerance : NQ) (patience : ℕ) :
    ℕ → σ × QPState → Option (σ × QPState)
  | 0, ss => some ss
  | f+1, ss =>
    if quickprop_cond tolerance patience ss.2 then
      (quickprop_body gp qp_learning_rate ss.1 ss.2).bind
        (quickprop_loop gp qp_learning_rate tolerance patience f)
    else some ss

theorem quickprop_loop_zero {σ : Type} (gp : GP σ) (lr tol : NQ) (pat : ℕ) (ss : σ × QPState) :
    quickprop_loop gp lr tol pat 0 ss = some ss := rfl

theorem quickprop_loop_succ {σ : Type} (gp : GP σ) (lr tol : NQ) (pat f : ℕ) (ss : σ × QPState) :
    quickprop_loop gp lr tol pat (f+1) ss =
      if quickprop_cond tol pat ss.2 then
        (quickprop_body gp lr ss.1 ss.2).bind (quickprop_loop gp lr tol pat f)
      else some ss := rfl

/-- Initialisation of the driver: the tracker sentinels (L_mean, L_mean_prev,
L_mean_diff all 1), dL initialised to zeros, then the single seeding
gradient-descent step whose outputs are assigned to w, dw_prev, L, dL_prev. -/
def quickprop_init {σ : Type} (gp : GP σ) (s : σ) (weights : List NQ) : σ × Option QPState :=
  let r := grad_descent_stepV gp s weights (NQ.fin (1/100000))
  (r.1, r.2.map (fun out =>
    ⟨out.1, weights.map (fun _ => NQ.fin 0), out.2.2.2, out.2.1, out.2.2.1,
     NQ.fin 1, NQ.fin 1, NQ.fin 1, 0, none⟩))

/-- The quickprop driver: seeding step, convergence loop, and the return
statement; `predicted.detach()` on the never-assigned placeholder raises,
modelled as `Except.error`. -/
def quickprop {σ : Type} (gp : GP σ) (s : σ) (weights : List NQ)
    (learning_rate tolerance : NQ) (patience : ℕ) :
    Except String (List NQ × List NQ × ℕ × NQ) :=
  let r0 := quickprop_init gp s weights
  Option.elim r0.2 (Except.error "gradient provider shape error in seeding step")
    (fun st0 =>
      Option.elim (quickprop_loop gp learning_rate tolerance patience patience (r0.1, st0))
        (Except.error "gradient provider shape error in quickprop step")
        (fun r =>
          Option.elim r.2.predicted
            (Except.error "AttributeError: list object has no attribute detach")
            (fun p => Except.ok (r.2.w, p, r.2.i, r.2.L))))

/-- A stateless gradient provider with constant loss 1, gradient [1] and
prediction [1], for concrete runs on a single parameter. -/
def constProvider : GP Unit := fun s _ => (s, NQ.fin 1, [NQ.fin 1], [NQ.fin 1])

/-- A gradient provider that replays a fixed sequence of losses (its state),
with zero gradient and prediction, for driving the running-mean tracker. -/
def seqProvider : GP (List ℚ) := fun s _ =>
  match s with
  | [] => ([], NQ.fin 0, [NQ.fin 0], [NQ.fin 0])
  | L :: rest => (rest, NQ.fin L, [NQ.fin 0], [NQ.fin 0])

/-- Wrap a gradient provider so that its state also counts how often it has
been invoked. -/
def countCalls {σ : Type} (gp : GP σ) : GP (σ × ℕ) := fun sc w =>
  let r := gp sc.1 w
  ((r.1, sc.2 + 1), r.2)

theorem init_const : (quickprop_init constProvider () [NQ.fin 0]).2 =
    some ⟨[NQ.fin (-(1/100000))], [NQ.fin 0], [NQ.fin 1], [NQ.fin (-(1/100000))],
          NQ.fin 1, NQ.fin 1, NQ.fin 1, NQ.fin 1, 0, none⟩ := by
  norm_num [quickprop_init, grad_descent_stepV, constProvider, bop]

theorem body_const :
    quickprop_body constProvider (NQ.fin (1/10000)) ()
      ⟨[NQ.fin (-(1/100000))], [NQ.fin 0], [NQ.fin 1], [NQ.fin (-(1/100000))],
       NQ.fin 1, NQ.fin 1, NQ.fin 1, NQ.fin 1, 0, none⟩ =
    some ((), ⟨[NQ.fin 0], [NQ.fin 1], [NQ.fin 0], [NQ.fin (1/100000)], NQ.fin 1,
               NQ.fin 1, NQ.fin 1, NQ.fin 0, 1, some [NQ.fin 1]⟩) := by
  norm_num [quickprop_body, quickprop_stepV, constProvider, quickprop_core_singleton,
    quickprop_dw, qp_raw_dw, qp_ddL_fin, cond_add_slope, clip_at_max_growth, NQ.clip]

set_option maxHeartbeats 1000000 in
theorem run_const : quickprop constProvider () [NQ.fin 0] (NQ.fin (1/10000)) (NQ.fin (1/2)) 5 =
    Except.ok ([NQ.fin 0], [NQ.fin 1], 1, NQ.fin 1) := by
  have h1 := body_const
  rw [quickprop]
  rw [show quickprop_init constProvider () [NQ.fin 0] =
        ((), some ⟨[NQ.fin (-(1/100000))], [NQ.fin 0], [NQ.fin 1], [NQ.fin (-(1/100000))],
          NQ.fin 1, NQ.fin 1, NQ.fin 1, NQ.fin 1, 0, none⟩) from Prod.ext rfl init_const]
  simp only [Option.elim]
  rw [show (5:ℕ) = 4 + 1 from rfl, quickprop_loop_succ]
  rw [show quickprop_cond (NQ.fin (1/2)) 5
        ⟨[NQ.fin (-(1/100000))], [NQ.fin 0], [NQ.fin 1], [NQ.fin (-(1/100000))],
         NQ.fin 1, NQ.fin 1, NQ.fin 1, NQ.fin 1, 0, none⟩ = true by
      norm_num [quickprop_cond]]
  rw [if_pos rfl]
  simp only [h1, Option.some_bind']
  rw [show (4:ℕ) = 3 + 1 from rfl, quickprop_loop_succ]
  rw [show quickprop_cond (NQ.fin (1/2)) 5
        ⟨[NQ.fin 0], [NQ.fin 1], [NQ.fin 0], [NQ.fin (1/100000)], NQ.fin 1,
         NQ.fin 1, NQ.fin 1, NQ.fin 0, 1, some [NQ.fin 1]⟩ = false by
      norm_num [quickprop_cond]]
  rw [if_neg (by simp)]

theorem quickprop_body_i {σ : Type} (gp : GP σ) (lr : NQ) (s : σ) (st : QPState)
    (r2 : σ × QPState) (h : quickprop_body gp lr s st = some r2) : r2.2.i = st.i + 1 := by
  simp only [quickprop_body, Option.map_eq_some'] at h
  obtain ⟨out, _, h2⟩ := h
  rw [← h2]

theorem quickprop_init_i {σ : Type} (gp : GP σ) (s : σ) (weights : List NQ) (st0 : QPState)
    (h : (quickprop_init gp s weights).2 = some st0) : st0.i = 0 := by
  simp only [quickprop_init, Option.map_eq_some'] at h
  obtain ⟨out, _, h2⟩ := h
  rw [← h2]

theorem quickprop_loop_bound {σ : Type} (gp : GP σ) (lr tol : NQ) (pat : ℕ) :
    ∀ (fuel : ℕ) (ss r : σ × QPState),
      quickprop_loop gp lr tol pat fuel ss = some r →
      r.2.i ≤ ss.2.i + fuel ∧ (quickprop_cond tol pat r.2 = false ∨ r.2.i = ss.2.i + fuel) := by
  intro fuel
  induction fuel with
  | zero =>
    intro ss r h
    rw [quickprop_loop_zero] at h
    obtain rfl : ss = r := Option.some.inj h
    exact ⟨Nat.le_refl _, Or.inr rfl⟩
  | succ f ih =>
    intro ss r h
    rw [quickprop_loop_succ] at h
    by_cases hc : quickprop_cond tol pat ss.2 = true
    · rw [if_pos hc] at h
      obtain ⟨ss2, hb, hl⟩ := Option.bind_eq_some.mp h
      have hi := quickprop_body_i gp lr ss.1 ss.2 ss2 hb
      obtain ⟨ih1, ih2⟩ := ih ss2 r hl
      constructor
      · omega
      · rcases ih2 with h2 | h2
        · exact Or.inl h2
        · exact Or.inr (by omega)
    · rw [if_neg hc] at h
      obtain rfl : ss = r := Option.some.inj h
      refine ⟨Nat.le_add_right _ _, Or.inl ?_⟩
      exact Bool.eq_false_iff.mpr hc

theorem quickprop_cond_false_of_leb (tol : NQ) (pat : ℕ) (st : QPState)
    (h : NQ.leb st.L_mean_diff tol = true) : quickprop_cond tol pat st = false := by
  rw [quickprop_cond, NQ.ltb_false_of_leb _ _ h, Bool.false_and]

theorem quickprop_cond_false_of_patience (tol : NQ) (pat : ℕ) (st : QPState)
    (h : pat ≤ st.i) : quickprop_cond tol pat st = false := by
  rw [quickprop_cond, decide_eq_false (Nat.not_lt.mpr h), Bool.and_false]

theorem quickprop_loop_stop {σ : Type} (gp : GP σ) (lr tol : NQ) (pat : ℕ) (ss : σ × QPState)
    (h : quickprop_cond tol pat ss.2 = false) :
    ∀ fuel, quickprop_loop gp lr tol pat fuel ss = some ss := by
  intro fuel
  cases fuel with
  | zero => rfl
  | succ f => rw [quickprop_loop_succ, h, if_neg (by simp)]

/-- The running-mean recurrence exactly as the spec states it:
m_i = m_{i-1} + (L_i - m_{i-1})/(i+1) with 1-based iteration index i.  The
counter argument is the number of losses already folded in, so the i-th loss
is divided by i+1 = counter+2. -/
def runningMeanSpec : ℚ → ℕ → List ℚ → ℚ
  | m, _, [] => m
  | m, k, L :: rest => runningMeanSpec (m + (L - m)/((k : ℚ) + 2)) (k + 1) rest

/-- Shape invariant maintained by the driver loop state when the driver is
run on a single parameter with the loss-sequence provider: singleton vectors,
zero stored gradient, and finite tracker values with nonnegative difference. -/
def SeqInv (st : QPState) : Prop :=
  (∃ a, st.w = [a]) ∧ st.dL = [NQ.fin 0] ∧ (∃ b, st.dw_prev = [b]) ∧
  st.L_mean_prev = st.L_mean ∧ (∃ m, st.L_mean = NQ.fin m) ∧
  (∃ d, st.L_mean_diff = NQ.fin d ∧ 0 ≤ d)

theorem seq_body (qlr : NQ) (L : ℚ) (rest : List ℚ) (st : QPState) (hInv : SeqInv st) :
    ∃ st2, quickprop_body seqProvider qlr (L :: rest) st = some (rest, st2)
      ∧ SeqInv st2 ∧ st2.i = st.i + 1
      ∧ ∀ m, st.L_mean = NQ.fin m →
          st2.L_mean = NQ.fin (m + (L - m)/((st.i : ℚ) + 2)) := by
  obtain ⟨⟨a, ha⟩, hdL, ⟨b, hb⟩, hprev, ⟨m, hm⟩, d, hd, hd0⟩ := hInv
  have hmean : st.L_mean + NQ.fin (1/(((st.i + 1 : ℕ) : ℚ)+1)) * (NQ.fin L - st.L_mean)
      = NQ.fin (m + (L - m)/((st.i : ℚ) + 2)) := by
    rw [hm]
    simp only [NQ.hAdd_eq, NQ.hMul_eq, NQ.hSub_eq, NQ.sub_eq, NQ.neg_fin, NQ.add_fin, NQ.mul_fin]
    have hcast : ((st.i + 1 : ℕ) : ℚ) + 1 = (st.i : ℚ) + 2 := by push_cast; ring
    rw [hcast]
    have hne : (st.i : ℚ) + 2 ≠ 0 := by positivity
    congr 1
    field_simp
    ring
  refine ⟨⟨[NQ.add a (quickprop_dw b (NQ.fin 0) (NQ.fin 0) qlr (NQ.fin (1/100000)))],
           [NQ.fin 0], [NQ.fin 0],
           [quickprop_dw b (NQ.fin 0) (NQ.fin 0) qlr (NQ.fin (1/100000))], NQ.fin L,
           NQ.fin (m + (L - m)/((st.i : ℚ) + 2)), NQ.fin (m + (L - m)/((st.i : ℚ) + 2)),
           NQ.fin |m + -(m + (L - m)/((st.i : ℚ) + 2))|, st.i + 1, some [NQ.fin 0]⟩,
         ?_, ?_, rfl, ?_⟩
  · simp only [quickprop_body, quickprop_stepV, seqProvider, ha, hb, hdL,
      quickprop_core_singleton, Option.map_some']
    rw [hmean, hprev, hm]
    simp only [NQ.hAdd_eq, NQ.hSub_eq, NQ.sub_eq, NQ.neg_fin, NQ.add_fin, NQ.absolute_fin_abs]
  · exact ⟨⟨_, rfl⟩, rfl, ⟨_, rfl⟩, rfl, ⟨_, rfl⟩, ⟨_, rfl, abs_nonneg _⟩⟩
  · intro m2 hm2
    rw [hm] at hm2
    obtain rfl : m = m2 := NQ.fin.inj hm2
    rfl

theorem seq_loop (qlr : NQ) : ∀ (Ls : List ℚ) (st : QPState) (m : ℚ), SeqInv st →
    st.L_mean = NQ.fin m →
    ∃ r, quickprop_loop seqProvider qlr (NQ.fin (-1)) (st.i + Ls.length) Ls.length (Ls, st)
        = some r
      ∧ r.2.L_mean = NQ.fin (runningMeanSpec m st.i Ls) ∧ r.2.i = st.i + Ls.length := by
  intro Ls
  induction Ls with
  | nil =>
    intro st m hInv hm
    exact ⟨(([] : List ℚ), st), quickprop_loop_zero _ _ _ _ _,
           by simpa [runningMeanSpec] using hm, rfl⟩
  | cons L rest ih =>
    intro st m hInv hm
    obtain ⟨st2, hbody, hInv2, hi2, hmean2⟩ := seq_body qlr L rest st hInv
    have hm2 : st2.L_mean = NQ.fin (m + (L - m)/((st.i : ℚ) + 2)) := hmean2 m hm
    obtain ⟨d, hd, hd0⟩ := hInv.2.2.2.2.2
    have hcond : quickprop_cond (NQ.fin (-1)) (st.i + (rest.length + 1)) st = true := by
      rw [quickprop_cond, hd, NQ.ltb_fin]
      rw [decide_eq_true (show (-1:ℚ) < d by linarith)]
      rw [decide_eq_true (show st.i < st.i + (rest.length + 1) by omega)]
      rfl
    obtain ⟨r, hl, hlm, hli⟩ := ih st2 (m + (L - m)/((st.i : ℚ) + 2)) hInv2 hm2
    have hpat : st.i + (rest.length + 1) = st2.i + rest.length := by
      rw [hi2]; omega
    refine ⟨r, ?_, ?_, ?_⟩
    · simp only [List.length_cons, quickprop_loop_succ, hcond, if_true, hbody,
        Option.some_bind']
      rw [hpat]
      exact hl
    · rw [show runningMeanSpec m st.i (L :: rest)
            = runningMeanSpec (m + (L - m)/((st.i : ℚ) + 2)) (st.i + 1) rest from rfl]
      rw [hlm, hi2]
    · rw [hli, List.length_cons]
      omega

/-- Claim C1: the spec demands that where the previous gradient equals the
current gradient the delta equals the gradient-descent fallback
-gd_lr * dL, is never NaN, and the division is never executed with a zero
denominator.  The code violates this: at dw_prev = 1, dL_prev = dL = 1 the
division dw_prev / (dL_prev - dL) is executed with denominator 0, giving inf,
and the decider product 0 * inf is NaN, which survives the whole
quickprop_step pipeline, so the returned delta is NaN instead of the finite
fallback value. -/
theorem c1_zero_denominator_nan :
    qp_raw_dw (NQ.fin 1) (NQ.fin 1) (NQ.fin 1) (NQ.fin (1/100000)) = NQ.nan
  ∧ quickprop_dw (NQ.fin 1) (NQ.fin 1) (NQ.fin 1) (NQ.fin (3/2)) (NQ.fin (1/100000)) = NQ.nan
  ∧ qp_raw_dw (NQ.fin 1) (NQ.fin 1) (NQ.fin 1) (NQ.fin (1/100000))
      ≠ NQ.fin (-(1/100000) * 1) := by
  refine ⟨?_, ?_, ?_⟩
  · norm_num [qp_raw_dw, qp_ddL_fin]
  · norm_num [quickprop_dw, qp_raw_dw, qp_ddL_fin, cond_add_slope, clip_at_max_growth, NQ.clip]
  · intro hc
    rw [show qp_raw_dw (NQ.fin 1) (NQ.fin 1) (NQ.fin 1) (NQ.fin (1/100000)) = NQ.nan by
        norm_num [qp_raw_dw, qp_ddL_fin]] at hc
    exact NQ.noConfusion hc

/-- Claim C2: the spec demands that the previousDelta and previousGradient
passed into the first quickprop_step invocation equal the seeding
gradient-descent step's delta and gradient.  The code violates the gradient
half: the loop body overwrites dL_prev with dL.clone() where dL is still the
zeros initialiser, so the first quickprop_step receives a zero previous
gradient.  Here st0 is the driver state after seeding (st0.dL_prev holds the
seed gradient [1], st0.dw_prev the seed delta) and st1.dL_prev records the
previous-gradient argument actually passed to the first quickprop_step,
which is [0]. -/
theorem c2_first_iteration_gradient_clobbered :
    ∃ st0 st1,
      (quickprop_init constProvider () [NQ.fin 0]).2 = some st0
      ∧ quickprop_body constProvider (NQ.fin (1/10000)) () st0 = some ((), st1)
      ∧ st0.dw_prev = [NQ.fin (-(1/100000))]
      ∧ st0.dL_prev = [NQ.fin 1]
      ∧ st1.dL_prev = [NQ.fin 0]
      ∧ st1.dL_prev ≠ st0.dL_prev := by
  refine ⟨_, _, init_const, body_const, rfl, rfl, rfl, ?_⟩
  intro hc
  have h0 := List.head_eq_of_cons_eq hc
  exact absurd (NQ.fin.inj h0) (by norm_num)

/-- Claim C3: for every fixed sequence of losses, the running mean the
driver maintains after iteration i equals the spec recurrence
m_i = m_{i-1} + (L_i - m_{i-1})/(i+1) with 1-based i, starting from the
sentinel m_0 = 1.  The sequence provider replays the losses (the head seeds
the gradient-descent step, whose loss does not enter the mean); tolerance -1
keeps the loop running for the full patience budget Ls.length. -/
theorem c3_running_mean_recurrence (Ls : List ℚ) (seedL : ℚ) :
    ∃ st0 r,
      quickprop_init seqProvider (seedL :: Ls) [NQ.fin 0] = (Ls, some st0)
      ∧ st0.L_mean = NQ.fin 1 ∧ st0.i = 0
      ∧ quickprop_loop seqProvider (NQ.fin (1/10000)) (NQ.fin (-1)) Ls.length Ls.length
          (Ls, st0) = some r
      ∧ r.2.L_mean = NQ.fin (runningMeanSpec 1 0 Ls)
      ∧ r.2.i = Ls.length := by
  have hinit : quickprop_init seqProvider (seedL :: Ls) [NQ.fin 0] =
      (Ls, some ⟨[NQ.fin 0], [NQ.fin 0], [NQ.fin 0], [NQ.fin 0], NQ.fin seedL,
                 NQ.fin 1, NQ.fin 1, NQ.fin 1, 0, none⟩) := by
    norm_num [quickprop_init, grad_descent_stepV, seqProvider, bop]
  have hSeqInv : SeqInv ⟨[NQ.fin 0], [NQ.fin 0], [NQ.fin 0], [NQ.fin 0], NQ.fin seedL,
                 NQ.fin 1, NQ.fin 1, NQ.fin 1, 0, none⟩ :=
    ⟨⟨_, rfl⟩, rfl, ⟨_, rfl⟩, rfl, ⟨_, rfl⟩, ⟨1, rfl, by norm_num⟩⟩
  obtain ⟨r, hl, hm, hi⟩ := seq_loop (NQ.fin (1/10000)) Ls
    ⟨[NQ.fin 0], [NQ.fin 0], [NQ.fin 0], [NQ.fin 0], NQ.fin seedL,
     NQ.fin 1, NQ.fin 1, NQ.fin 1, 0, none⟩ 1 hSeqInv rfl
  refine ⟨_, r, hinit, rfl, rfl, ?_, hm, ?_⟩
  · simpa using hl
  · simpa using hi

/-- Claim C4, counterexample to the universally quantified growth bound: at
dw_prev = 1, dL_prev = dL = 1 the returned delta is NaN (claim C1), and the
elementwise bound abs(dw) <= 1.75 * abs(dw_prev) is false for it. -/
theorem c4_growth_bound_counterexample :
    NQ.leb (NQ.absolute (quickprop_dw (NQ.fin 1) (NQ.fin 1) (NQ.fin 1)
        (NQ.fin (3/2)) (NQ.fin (1/100000))))
      (NQ.fin (7/4) * NQ.absolute (NQ.fin 1)) = false := by
  norm_num [quickprop_dw, qp_raw_dw, qp_ddL_fin, cond_add_slope, clip_at_max_growth,
    NQ.clip, NQ.leb]

/-- Claim C4 (amended): for every component with finite inputs whose previous
and current gradients differ, the delta returned by quickprop_step satisfies
abs(dw) <= 1.75 * abs(dw_prev); the clamp is the last step of the pipeline.
(When the gradients coincide the output is NaN - see claim C1 - and the
bound fails, hence the hypothesis.) -/
theorem c4_growth_bound (dwp dLp dL qlr glr : ℚ) (h : dLp ≠ dL) :
    NQ.leb (NQ.absolute (quickprop_dw (NQ.fin dwp) (NQ.fin dLp) (NQ.fin dL)
        (NQ.fin qlr) (NQ.fin glr)))
      (NQ.fin (7/4) * NQ.absolute (NQ.fin dwp)) = true := by
  have hden : dLp + -dL ≠ 0 := fun hc => h (by linarith)
  have hraw : qp_raw_dw (NQ.fin dwp) (NQ.fin dLp) (NQ.fin dL) (NQ.fin glr)
      = NQ.fin (dL * (1 * (dwp / (dLp + -dL)) + (1 + -1) * -glr)) := by
    rw [qp_raw_dw, qp_ddL_fin, if_neg h]
    simp only [NQ.hAdd_eq, NQ.hMul_eq, NQ.hDiv_eq, NQ.hSub_eq, NQ.sub_eq, NQ.neg_fin,
      NQ.add_fin, NQ.mul_fin, NQ.div_fin]
    rw [if_neg hden]
    simp only [NQ.hNeg_eq, NQ.neg_fin, NQ.add_fin, NQ.mul_fin]
  obtain ⟨s1, hs1⟩ := NQ.sign_fin_exists (dL * (1 * (dwp / (dLp + -dL)) + (1 + -1) * -glr))
  obtain ⟨s2, hs2⟩ := NQ.sign_fin_exists dwp
  have hcas : cond_add_slope (qp_raw_dw (NQ.fin dwp) (NQ.fin dLp) (NQ.fin dL) (NQ.fin glr))
      (NQ.fin dwp) (NQ.fin dL) (NQ.fin qlr)
      = NQ.fin (dL * (1 * (dwp / (dLp + -dL)) + (1 + -1) * -glr)
          + min (max |s1 + s2| 0) 1 * (-qlr * dL)) := by
    rw [cond_add_slope, hraw]
    simp only [NQ.hAdd_eq, NQ.hMul_eq, NQ.hNeg_eq]
    rw [hs1, hs2]
    simp only [NQ.clip, NQ.add_fin, NQ.absolute_fin_abs, NQ.maximum_fin, NQ.minimum_fin,
      NQ.neg_fin, NQ.mul_fin]
  rw [quickprop_dw, hcas, clip_at_max_growth, NQ.clip]
  simp only [NQ.hMul_eq, NQ.hNeg_eq]
  rw [NQ.absolute_fin_abs dwp]
  simp only [NQ.mul_fin, NQ.neg_fin, NQ.maximum_fin, NQ.minimum_fin]
  rw [NQ.absolute_fin_abs, NQ.leb_fin, decide_eq_true_eq]
  have hmg : (0:ℚ) ≤ 7/4 * |dwp| := by positivity
  rw [abs_le]
  constructor
  · exact le_min (le_max_right _ _) (neg_le_self hmg)
  · exact min_le_right _ _

theorem c4_growth_bound_witness :
    (1:ℚ) ≠ 0
  ∧ NQ.leb (NQ.absolute (quickprop_dw (NQ.fin 1) (NQ.fin 1) (NQ.fin 0)
        (NQ.fin (3/2)) (NQ.fin (1/100000))))
      (NQ.fin (7/4) * NQ.absolute (NQ.fin 1)) = true :=
  ⟨by norm_num, c4_growth_bound 1 1 0 (3/2) (1/100000) (by norm_num)⟩

/-- Claim C5, counterexample: with sign(dw) = 1 and sign(dw_prev) = 0 the
signs differ (zero being its own bucket), yet the conditional slope term is
not zero: cond_add_slope(1, 0, 1, 1.5) = 1 + 1 * (-1.5) = -1/2, not 1. -/
theorem c5_sign_counterexample :
    cond_add_slope (NQ.fin 1) (NQ.fin 0) (NQ.fin 1) (NQ.fin (3/2)) = NQ.fin (-(1/2))
  ∧ NQ.fin (-(1/2)) ≠ NQ.fin 1 := by
  constructor
  · norm_num [cond_add_slope, NQ.clip]
  · intro hc
    exact absurd (NQ.fin.inj hc) (by norm_num)

/-- Claim C5 (amended): the conditional slope term vanishes exactly on the
components where sign(dw_raw) + sign(previous dw) = 0, i.e. when the two are
strictly opposite in sign or both zero; when exactly one of them is zero the
term is added, so the original phrasing (any sign difference, zero its own
bucket, makes the term zero) is wrong for those boundary components. -/
theorem c5_opposite_or_both_zero (dw dwp dL lr : ℚ)
    (h : (0 < dw ∧ dwp < 0) ∨ (dw < 0 ∧ 0 < dwp) ∨ (dw = 0 ∧ dwp = 0)) :
    cond_add_slope (NQ.fin dw) (NQ.fin dwp) (NQ.fin dL) (NQ.fin lr) = NQ.fin dw := by
  have hsum : NQ.add (NQ.sign (NQ.fin dw)) (NQ.sign (NQ.fin dwp)) = NQ.fin 0 := by
    rcases h with ⟨h1, h2⟩ | ⟨h1, h2⟩ | ⟨h1, h2⟩
    · rw [NQ.sign_fin, if_neg (asymm h1), if_neg h1.ne', NQ.sign_fin, if_pos h2]
      norm_num
    · rw [NQ.sign_fin, if_pos h1, NQ.sign_fin, if_neg (asymm h2), if_neg h2.ne']
      norm_num
    · subst h1; subst h2
      norm_num
  rw [cond_add_slope]
  simp only [NQ.hAdd_eq, NQ.hMul_eq, NQ.hNeg_eq]
  rw [hsum]
  norm_num [NQ.clip]

theorem c5_opposite_or_both_zero_witness :
    ((0:ℚ) < 1 ∧ (-1:ℚ) < 0)
  ∧ cond_add_slope (NQ.fin 1) (NQ.fin (-1)) (NQ.fin 5) (NQ.fin 2) = NQ.fin 1 :=
  ⟨⟨by norm_num, by norm_num⟩,
   c5_opposite_or_both_zero 1 (-1) 5 2 (Or.inl ⟨by norm_num, by norm_num⟩)⟩

/-- Claim C9, counterexample: zero is not absorbing for every gradient.
With previous delta 0 and unchanged gradient (dL_prev = dL = 1) the returned
delta is NaN (the claim C1 defect), not 0, so the parameter becomes NaN
rather than staying fixed. -/
theorem c9_zero_delta_counterexample :
    quickprop_dw (NQ.fin 0) (NQ.fin 1) (NQ.fin 1) (NQ.fin (3/2)) (NQ.fin (1/100000)) = NQ.nan
  ∧ NQ.nan ≠ NQ.fin 0 := by
  constructor
  · norm_num [quickprop_dw, qp_raw_dw, qp_ddL_fin, cond_add_slope, clip_at_max_growth, NQ.clip]
  · simp

/-- Claim C9 (amended): for every component with finite inputs, previous
delta exactly 0 and previous gradient different from the current gradient,
quickprop_step returns delta exactly 0 (the quickprop factor is 0/denom = 0,
the slope addition sees sign 0 on both sides, and the growth clamp bounds
the result to [0, 0]); when the gradients coincide the output is NaN
instead. -/
theorem c9_zero_absorbing (dLp dL qlr glr : ℚ) (h : dLp ≠ dL) :
    quickprop_dw (NQ.fin 0) (NQ.fin dLp) (NQ.fin dL) (NQ.fin qlr) (NQ.fin glr) = NQ.fin 0 := by
  have hden : dLp + -dL ≠ 0 := fun hc => h (by linarith)
  have hraw : qp_raw_dw (NQ.fin 0) (NQ.fin dLp) (NQ.fin dL) (NQ.fin glr) = NQ.fin 0 := by
    rw [qp_raw_dw, qp_ddL_fin, if_neg h]
    simp only [NQ.hAdd_eq, NQ.hMul_eq, NQ.hDiv_eq, NQ.hSub_eq, NQ.sub_eq, NQ.neg_fin,
      NQ.add_fin, NQ.div_fin, NQ.mul_fin]
    rw [if_neg hden]
    simp only [NQ.add_fin, NQ.mul_fin]
    norm_num
  rw [quickprop_dw, hraw]
  have hcas : cond_add_slope (NQ.fin 0) (NQ.fin 0) (NQ.fin dL) (NQ.fin qlr) = NQ.fin 0 := by
    norm_num [cond_add_slope, NQ.clip]
  rw [hcas]
  norm_num [clip_at_max_growth, NQ.clip]

theorem c9_zero_absorbing_witness :
    (1:ℚ) ≠ 0
  ∧ quickprop_dw (NQ.fin 0) (NQ.fin 1) (NQ.fin 0) (NQ.fin (3/2)) (NQ.fin (1/100000))
      = NQ.fin 0 :=
  ⟨by norm_num, c9_zero_absorbing 1 0 (3/2) (1/100000) (by norm_num)⟩

theorem ceil_half_q : ((⌈(1:ℚ)/2⌉ : ℤ) : ℚ) = 1 := by
  have h : ⌈(1:ℚ)/2⌉ = 1 := by
    rw [Int.ceil_eq_iff]
    constructor <;> norm_num
  rw [h]
  norm_num

/-- Claim C6: the driver always terminates within the patience budget.  Any
successful run returns an iteration count at most patience; the loop guard is
false as soon as the mean-loss change is at or below tolerance or the count
has reached patience (so the loop stops then); and any completed loop run
started at count 0 ends with count at most patience, having stopped either
because the guard failed (change not above tolerance, which includes the NaN
case where every comparison is false) or because the count reached patience. -/
theorem c6_termination {σ : Type} (gp : GP σ) (s : σ) (weights : List NQ)
    (lr tol : NQ) (patience : ℕ) :
    (∀ w p i L, quickprop gp s weights lr tol patience = Except.ok (w, p, i, L) →
        i ≤ patience)
  ∧ (∀ st : QPState, NQ.leb st.L_mean_diff tol = true → quickprop_cond tol patience st = false)
  ∧ (∀ st : QPState, patience ≤ st.i → quickprop_cond tol patience st = false)
  ∧ (∀ ss r : σ × QPState, ss.2.i = 0 →
        quickprop_loop gp lr tol patience patience ss = some r →
        r.2.i ≤ patience ∧ (quickprop_cond tol patience r.2 = false ∨ r.2.i = patience)) := by
  refine ⟨?_, ?_, ?_, ?_⟩
  · intro w p i L h
    simp only [quickprop] at h
    rcases h0 : (quickprop_init gp s weights).2 with _ | st0
    · rw [h0] at h
      simp only [Option.elim] at h
      exact Except.noConfusion h
    · rw [h0] at h
      simp only [Option.elim] at h
      rcases hl : quickprop_loop gp lr tol patience patience
          ((quickprop_init gp s weights).1, st0) with _ | r
      · rw [hl] at h
        simp only [Option.elim] at h
        exact Except.noConfusion h
      · rw [hl] at h
        simp only [Option.elim] at h
        rcases hp : r.2.predicted with _ | pv
        · rw [hp] at h
          simp only [Option.elim] at h
          exact Except.noConfusion h
        · rw [hp] at h
          simp only [Option.elim] at h
          have h5 := Except.ok.inj h
          have hi : r.2.i = i := congrArg (fun t => t.2.2.1) h5
          have hb := (quickprop_loop_bound gp lr tol patience patience _ r hl).1
          have h00 : st0.i = 0 := quickprop_init_i gp s weights st0 h0
          simp only [h00] at hb
          omega
  · intro st hle
    exact quickprop_cond_false_of_leb tol patience st hle
  · intro st hle
    exact quickprop_cond_false_of_patience tol patience st hle
  · intro ss r h0 hl
    obtain ⟨h1, h2⟩ := quickprop_loop_bound gp lr tol patience patience ss r hl
    rw [h0] at h1 h2
    refine ⟨by omega, ?_⟩
    rcases h2 with h2 | h2
    · exact Or.inl h2
    · exact Or.inr (by omega)

theorem c6_termination_witness :
    quickprop constProvider () [NQ.fin 0] (NQ.fin (1/10000)) (NQ.fin (1/2)) 5
        = Except.ok ([NQ.fin 0], [NQ.fin 1], 1, NQ.fin 1)
  ∧ (1:ℕ) ≤ 5 :=
  ⟨run_const,
   (c6_termination constProvider () [NQ.fin 0] (NQ.fin (1/10000)) (NQ.fin (1/2)) 5).1
     [NQ.fin 0] [NQ.fin 1] 1 (NQ.fin 1) run_const⟩

set_option maxHeartbeats 1000000 in
/-- Claim C7, counterexample: quickprop_step performs no shape check at
entry.  With a previous-delta vector of length 1 against parameter, gradient
and previous-gradient vectors of length 2, broadcasting silently produces
full length-2 elementwise results instead of any fatal error. -/
theorem c7_broadcast_counterexample :
    quickprop_core [NQ.fin 0, NQ.fin 0] [NQ.fin 1] [NQ.fin 0, NQ.fin 0] (NQ.fin 0)
        [NQ.fin 1, NQ.fin 1] [] (NQ.fin 1) (NQ.fin 1) =
      some ([NQ.fin (-1), NQ.fin (-1)], [NQ.fin (-1), NQ.fin (-1)], NQ.fin 0,
            [NQ.fin 1, NQ.fin 1], []) := by
  norm_num [quickprop_core, bop, cond_add_slopeV, clip_at_max_growthV, NQ.clip, ceil_half_q]

/-- Claim C7 (amended): quickprop_step has no entry shape check.  A
length-one operand is silently broadcast, producing elementwise results (see
the counterexample); a non-broadcastable mismatch (here: previous delta and
gradient both of length at least 2 but different) fails only when the
elementwise division inside the pipeline combines the offending operands,
surfacing as an error from within rather than an immediate entry check. -/
theorem c7_shape_mismatch_error (w dw_prev dL_prev : List NQ) (L : NQ)
    (dL predicted : List NQ) (qlr glr : NQ)
    (hpl : dL_prev.length = dL.length) (hne : dw_prev.length ≠ dL.length)
    (h2 : 2 ≤ dw_prev.length) (h3 : 2 ≤ dL.length) :
    quickprop_core w dw_prev dL_prev L dL predicted qlr glr = none := by
  have hd : bop NQ.sub dL_prev dL = some (List.zipWith NQ.sub dL_prev dL) :=
    bop_some_of_length_eq _ _ _ hpl
  have hlen : (List.zipWith NQ.sub dL_prev dL).length = dL.length := by
    rw [List.length_zipWith, hpl, Nat.min_self]
  have hq : bop NQ.div dw_prev (List.zipWith NQ.sub dL_prev dL) = none :=
    bop_none_of_mismatch _ _ _ (by rw [hlen]; exact hne) h2 (by rw [hlen]; exact h3)
  simp [quickprop_core, hd, hq]

theorem c7_shape_mismatch_error_witness :
    (([NQ.fin 0, NQ.fin 0] : List NQ).length = ([NQ.fin 0, NQ.fin 0] : List NQ).length)
  ∧ (([NQ.fin 1, NQ.fin 1, NQ.fin 1] : List NQ).length
      ≠ ([NQ.fin 0, NQ.fin 0] : List NQ).length)
  ∧ 2 ≤ ([NQ.fin 1, NQ.fin 1, NQ.fin 1] : List NQ).length
  ∧ 2 ≤ ([NQ.fin 0, NQ.fin 0] : List NQ).length
  ∧ quickprop_core [] [NQ.fin 1, NQ.fin 1, NQ.fin 1] [NQ.fin 0, NQ.fin 0] (NQ.fin 0)
      [NQ.fin 0, NQ.fin 0] [] (NQ.fin 1) (NQ.fin 1) = none :=
  ⟨rfl, by decide, by decide, by decide,
   c7_shape_mismatch_error [] [NQ.fin 1, NQ.fin 1, NQ.fin 1] [NQ.fin 0, NQ.fin 0] (NQ.fin 0)
     [NQ.fin 0, NQ.fin 0] [] (NQ.fin 1) (NQ.fin 1) rfl (by decide) (by decide) (by decide)⟩

/-- Claim C8: grad_descent_step passes the provider state through, returns
(new_w, dw, L, dL) with dw = -lr * g exactly and new_w = w + dw
componentwise in exact arithmetic, and invokes the gradient provider exactly
once (shown by call-counting instrumentation of an arbitrary provider). -/
theorem c8_grad_descent_step {σ : Type} (gp : GP σ) (s : σ) (w : List NQ) (lr : NQ) (c : ℕ)
    (wq gq : List ℚ) (lrq : ℚ)
    (hw : w = wq.map NQ.fin) (hg : (gp s w).2.2.1 = gq.map NQ.fin) (hl : lr = NQ.fin lrq)
    (hlen : gq.length = wq.length) :
    (grad_descent_stepV gp s w lr).1 = (gp s w).1
  ∧ (grad_descent_stepV gp s w lr).2 = some
      (List.zipWith (fun a b => NQ.fin (a + -(lrq * b))) wq gq,
       gq.map (fun b => NQ.fin (-(lrq * b))),
       (gp s w).2.1,
       gq.map NQ.fin)
  ∧ (grad_descent_stepV (countCalls gp) (s, c) w lr).1.2 = c + 1 := by
  subst hw
  subst hl
  refine ⟨rfl, ?_, rfl⟩
  have hdw2 : (List.map NQ.fin gq).map (fun v => -NQ.fin lrq * v)
      = gq.map (fun b => NQ.fin (-(lrq * b))) := by
    rw [List.map_map]
    congr 1
    funext b
    simp only [Function.comp_apply, NQ.hMul_eq, NQ.hNeg_eq, NQ.neg_fin, NQ.mul_fin, neg_mul]
  have hz : List.zipWith NQ.add (wq.map NQ.fin) (gq.map (fun b => NQ.fin (-(lrq * b))))
      = List.zipWith (fun a b => NQ.fin (a + -(lrq * b))) wq gq := by
    rw [List.zipWith_map_left, List.zipWith_map_right]
    rfl
  simp only [grad_descent_stepV, hg, hdw2]
  rw [bop_some_of_length_eq _ _ _ (by simp [hlen]), hz, Option.map_some']

def c8Provider : GP Unit := fun s _ => (s, NQ.fin 5, [NQ.fin 2, NQ.fin 3], [])

theorem c8_grad_descent_step_witness :
    (([NQ.fin 1, NQ.fin 4] : List NQ) = ([1, 4] : List ℚ).map NQ.fin)
  ∧ ((c8Provider () [NQ.fin 1, NQ.fin 4]).2.2.1 = ([2, 3] : List ℚ).map NQ.fin)
  ∧ (([2, 3] : List ℚ).length = ([1, 4] : List ℚ).length)
  ∧ (grad_descent_stepV c8Provider () [NQ.fin 1, NQ.fin 4] (NQ.fin 2)).2 = some
      (List.zipWith (fun a b => NQ.fin (a + -(2 * b))) [1, 4] [2, 3],
       ([2, 3] : List ℚ).map (fun b => NQ.fin (-(2 * b))),
       (c8Provider () [NQ.fin 1, NQ.fin 4]).2.1,
       ([2, 3] : List ℚ).map NQ.fin)
  ∧ (grad_descent_stepV (countCalls c8Provider) ((), 0) [NQ.fin 1, NQ.fin 4]
      (NQ.fin 2)).1.2 = 1 := by
  have h := c8_grad_descent_step c8Provider () [NQ.fin 1, NQ.fin 4] (NQ.fin 2) 0
    [1, 4] [2, 3] 2 rfl rfl rfl rfl
  exact ⟨rfl, rfl, rfl, h.2.1, h.2.2⟩

theorem quickprop_init_some {σ : Type} (gp : GP σ) (s : σ) (weights : List NQ)
    (hshape : ((gp s weights).2.2.1).length = weights.length) :
    ∃ st0, (quickprop_init gp s weights).2 = some st0 := by
  simp only [quickprop_init, grad_descent_stepV]
  rw [bop_some_of_length_eq _ _ _ (by simp [hshape])]
  simp only [Option.map_some']
  exact ⟨_, rfl⟩

theorem quickprop_init_fields {σ : Type} (gp : GP σ) (s : σ) (weights : List NQ)
    (st0 : QPState) (h : (quickprop_init gp s weights).2 = some st0) :
    st0.L_mean_diff = NQ.fin 1 ∧ st0.i = 0 ∧ st0.predicted = none := by
  simp only [quickprop_init, Option.map_eq_some'] at h
  obtain ⟨out, _, h2⟩ := h
  rw [← h2]
  exact ⟨rfl, rfl, rfl⟩

/-- Claim C10: with any tolerance at least 1 (and a well-shaped provider so
the seeding step itself succeeds) the loop guard fails immediately, because
the sentinel mean-loss difference is exactly 1, so the body runs zero times
and the return statement raises: the prediction placeholder is still the
initial empty list, which has no detach method.  The driver therefore
returns an error, not a result of the documented shape. -/
theorem c10_zero_iterations_raises {σ : Type} (gp : GP σ) (s : σ) (weights : List NQ)
    (lr : NQ) (tolq : ℚ) (patience : ℕ) (htol : 1 ≤ tolq)
    (hshape : ((gp s weights).2.2.1).length = weights.length) :
    quickprop gp s weights lr (NQ.fin tolq) patience =
      Except.error "AttributeError: list object has no attribute detach" := by
  obtain ⟨st0, h0⟩ := quickprop_init_some gp s weights hshape
  obtain ⟨hdiff, hi, hpred⟩ := quickprop_init_fields gp s weights st0 h0
  have hcond : quickprop_cond (NQ.fin tolq) patience st0 = false := by
    rw [quickprop_cond, hdiff, NQ.ltb_fin, decide_eq_false (not_lt.mpr htol), Bool.false_and]
  simp only [quickprop]
  rw [h0]
  simp only [Option.elim]
  rw [quickprop_loop_stop gp lr (NQ.fin tolq) patience
      ((quickprop_init gp s weights).1, st0) hcond patience]
  simp only [Option.elim, hpred]

theorem c10_zero_iterations_raises_witness :
    (1:ℚ) ≤ 1
  ∧ (((constProvider () [NQ.fin 0]).2.2.1).length = ([NQ.fin 0] : List NQ).length)
  ∧ quickprop constProvider () [NQ.fin 0] (NQ.fin (1/10000)) (NQ.fin 1) 7 =
      Except.error "AttributeError: list object has no attribute detach" :=
  ⟨le_refl 1, rfl, c10_zero_iterations_raises constProvider () [NQ.fin 0] (NQ.fin (1/10000))
    1 7 (le_refl 1) rfl⟩
